import Mathlib

/- Verification of the client data-access layer of the ai-chat-app repository:
   the TTL cache, the bounded-concurrency request queue, the API facade
   (src/lib/api.ts) and the Zustand chat store (src/store/chatStore.ts, the
   first of the two near-duplicate store implementations, which the claims
   cite). Asynchronous code is embedded by explicit state passing; the points
   at which an async function suspends (await) are split into separate step
   functions where interleaving matters. Backend outcomes (supabase queries,
   the completion endpoint) are oracles passed as parameters; a thrown error
   is an Except.error carrying the message string the catch blocks read. -/

/-- A chat message row (src/types/index.ts, interface Message). ISO-8601
created_at timestamps are modelled as naturals respecting their order; the
optional metadata field is unused by the claims and omitted. -/
structure Message where
  id : String
  conversation_id : String
  content : String
  role : String
  created_at : Nat
deriving DecidableEq

/-- A conversation row (src/types/index.ts, interface Conversation). -/
structure Conversation where
  id : String
  user_id : String
  title : String
  created_at : Nat
  updated_at : Nat
deriving DecidableEq

/-- Uniform facade result shape (src/types/index.ts, interface ApiResponse):
data, optional error string, success flag. -/
structure ApiResponse (α : Type) where
  data : α
  error : Option String
  success : Bool
deriving DecidableEq

/-- Modelled from the spec: the TTL cache of src/lib/cache.ts is absent from
the sources (only its callers in src/lib/api.ts are present). Per spec section
4.1 a cache is a key-value store with a per-entry absolute expiry timestamp. -/
def Cache (α : Type) : Type := List (String × α × Nat)

instance (α : Type) [DecidableEq α] : DecidableEq (Cache α) := by
  unfold Cache; infer_instance

/-- Modelled from the spec: set(key, value, ttl) stores a value with absolute
expiry = now + ttl, replacing any previous entry for the key. -/
def cacheSet {α : Type} (c : Cache α) (key : String) (value : α) (now ttl : Nat) : Cache α :=
  (key, value, now + ttl) :: c.filter (fun e => e.1 != key)

/-- Modelled from the spec: get(key) returns the value if present and not
expired, else signals a miss; a read after expiry is treated as a miss. -/
def cacheGet {α : Type} (c : Cache α) (key : String) (now : Nat) : Option α :=
  match c.find? (fun e => e.1 == key) with
  | some e => if now < e.2.2 then some e.2.1 else none
  | none => none

/-- Modelled from the spec: delete(key) removes an entry unconditionally
(used for invalidation after writes). -/
def cacheDelete {α : Type} (c : Cache α) (key : String) : Cache α :=
  c.filter (fun e => e.1 != key)

/-- Modelled from the spec: cacheKeys.messages of the missing src/lib/cache.ts
maps a conversation id to the base cache key for that conversation's messages.
The exact base-key string is unknown; any encoding gives the same claim
outcomes, because api.ts builds page keys by appending a nonempty suffix. -/
def cacheKeysMessages (conversationId : String) : String :=
  "messages:" ++ conversationId

/-- Modelled from the spec: cacheKeys.conversations of the missing
src/lib/cache.ts maps a user id to the cache key for that user's
conversation list. -/
def cacheKeysConversations (userId : String) : String :=
  "conversations:" ++ userId

/-- The cache key under which api.getMessages stores a page
(src/lib/api.ts line 157): base key, then a colon-separated limit and offset. -/
def messagesPageKey (conversationId : String) (limit offset : Nat) : String :=
  cacheKeysMessages conversationId ++ ":" ++ toString limit ++ ":" ++ toString offset

/-- The ranged ascending query of api.getMessages (src/lib/api.ts lines
165-171): the messages relation filtered to one conversation and ordered by
created_at ascending is the oracle's row list; .range(offset, offset+limit-1)
keeps rows offset .. offset+limit-1. -/
def queryMessagesRange (rows : List Message) (limit offset : Nat) : List Message :=
  (rows.drop offset).take limit

/-- Outcome of one api.getMessages call: the response, the cache afterwards,
and instrumentation counting tasks submitted to the request queue and calls
made to the backend data service. -/
structure GetMessagesResult where
  response : ApiResponse (List Message)
  cache : Cache (List Message)
  queuedTasks : Nat
  dataServiceCalls : Nat
deriving DecidableEq

/-- api.getMessages (src/lib/api.ts lines 153-190): consult the per-page cache
entry; on a miss, submit the ranged ascending query to the request queue and
cache the returned page for 60 000 ms; on a thrown error return the uniform
failure shape. The code performs no session check in this operation. The
backend oracle is attempt-indexed so that retry behaviour (or its absence) is
observable; the source invokes the queued task once, so only index 0 is
consulted. -/
def getMessagesApi (cache : Cache (List Message)) (now : Nat) (conversationId : String)
    (limit offset : Nat) (backend : Nat → Except String (List Message)) : GetMessagesResult :=
  let cacheKey := messagesPageKey conversationId limit offset
  match cacheGet cache cacheKey now with
  | some cached => ⟨⟨cached, none, true⟩, cache, 0, 0⟩
  | none =>
    match backend 0 with
    | .ok rows =>
      let result := queryMessagesRange rows limit offset
      ⟨⟨result, none, true⟩, cacheSet cache cacheKey result now 60000, 1, 1⟩
    | .error e => ⟨⟨[], some e, false⟩, cache, 1, 1⟩

/-- Outcome of one api.getConversations call. -/
structure GetConversationsResult where
  response : ApiResponse (List Conversation)
  cache : Cache (List Conversation)
  queuedTasks : Nat
  dataServiceCalls : Nat
deriving DecidableEq

/-- api.getConversations (src/lib/api.ts lines 110-150): read the session
before touching cache or queue; with no session the thrown error is caught and
surfaced without queuing. Otherwise consult the per-user cache entry; on a
miss submit the descending, limit-30 query to the queue and cache the rows for
180 000 ms. The session is the current user's id, if any. -/
def getConversationsApi (session : Option String) (cache : Cache (List Conversation))
    (now : Nat) (backend : Nat → Except String (List Conversation)) : GetConversationsResult :=
  match session with
  | none => ⟨⟨[], some "User not authenticated", false⟩, cache, 0, 0⟩
  | some userId =>
    let cacheKey := cacheKeysConversations userId
    match cacheGet cache cacheKey now with
    | some cached => ⟨⟨cached, none, true⟩, cache, 0, 0⟩
    | none =>
      match backend 0 with
      | .ok rows => ⟨⟨rows, none, true⟩, cacheSet cache cacheKey rows now 180000, 1, 1⟩
      | .error e => ⟨⟨[], some e, false⟩, cache, 1, 1⟩

/-- Outcome of one api.createConversation call; data is none on failure
(the source returns data null there). -/
structure CreateConversationResult where
  response : ApiResponse (Option Conversation)
  cache : Cache (List Conversation)
  queuedTasks : Nat
  dataServiceCalls : Nat
deriving DecidableEq

/-- api.createConversation (src/lib/api.ts lines 76-108): the whole operation
is submitted to the request queue first; the session check runs inside the
queued task, so a task is queued even when no session exists, but the insert
is then skipped. On a successful insert the per-user conversations cache entry
is deleted. -/
def createConversationApi (session : Option String) (cache : Cache (List Conversation))
    (insert : Nat → Except String Conversation) : CreateConversationResult :=
  match session with
  | none => ⟨⟨none, some "User not authenticated", false⟩, cache, 1, 0⟩
  | some userId =>
    match insert 0 with
    | .ok row => ⟨⟨some row, none, true⟩, cacheDelete cache (cacheKeysConversations userId), 1, 1⟩
    | .error e => ⟨⟨none, some e, false⟩, cache, 1, 1⟩

/-- Outcome of one api.sendMessage call: the response, the messages relation
for the conversation afterwards (ascending order), the cache afterwards, and
instrumentation. -/
structure SendMessageResult where
  response : ApiResponse (Option Message)
  rows : List Message
  cache : Cache (List Message)
  queuedTasks : Nat
  dataServiceCalls : Nat
  completionCalls : Nat
deriving DecidableEq

/-- api.sendMessage (src/lib/api.ts lines 193-277): one queued task inserts
the user row, calls the completion endpoint (a 30 s timeout and non-2xx
responses both surface as thrown errors, i.e. the .error case of the
completion oracle), inserts the assistant row, then fires the asynchronous
conversation-timestamp update whose continuation deletes the BASE messages
cache key cacheKeysMessages conversationId, not any page key. The code
performs no session check. No step removes the user row once inserted: a
later failure leaves rows unchanged from that point. The update itself only
touches the conversations relation and is not otherwise modelled; its cache
deletion (the part the claims concern) is. Returns the assistant message
alone on success, data none on failure. -/
def sendMessageApi (conversationId : String) (rows : List Message)
    (cache : Cache (List Message)) (userInsert : Except String Message)
    (completion : Except String String) (aiInsert : String → Except String Message) :
    SendMessageResult :=
  match userInsert with
  | .error e => ⟨⟨none, some e, false⟩, rows, cache, 1, 1, 0⟩
  | .ok userMessage =>
    let rows1 := rows ++ [userMessage]
    match completion with
    | .error e => ⟨⟨none, some e, false⟩, rows1, cache, 1, 1, 1⟩
    | .ok replyText =>
      match aiInsert replyText with
      | .error e => ⟨⟨none, some e, false⟩, rows1, cache, 1, 2, 1⟩
      | .ok aiMessage =>
        ⟨⟨some aiMessage, none, true⟩, rows1 ++ [aiMessage],
          cacheDelete cache (cacheKeysMessages conversationId), 1, 3, 1⟩

/-- Sample pre-existing message of conversation conv1. -/
def msg0 : Message := ⟨"m0", "conv1", "hello", "user", 1⟩

/-- Sample persisted user row for a later send on conv1. -/
def msgU : Message := ⟨"m1", "conv1", "again", "user", 2⟩

/-- Sample persisted assistant row for that send. -/
def msgAi : Message := ⟨"m2", "conv1", "reply", "assistant", 3⟩

/-- A messages cache holding the page (limit 50, offset 0) of conv1 cached at
time 0 with the 60 s TTL, exactly as a pre-send getMessages leaves it. -/
def preSendCache : Cache (List Message) :=
  cacheSet [] (messagesPageKey "conv1" 50 0) [msg0] 0 60000

/-- The successful send on conv1 performed after that page was cached. -/
def sendAfterCacheFill : SendMessageResult :=
  sendMessageApi "conv1" [msg0] preSendCache (.ok msgU) (.ok "reply") (fun _ => .ok msgAi)

/-- The getMessages call for the same page issued after the send, at time 10
(well within the TTL), with the post-send rows available from the backend. -/
def reloadAfterSend : GetMessagesResult :=
  getMessagesApi sendAfterCacheFill.cache 10 "conv1" 50 0 (fun _ => .ok sendAfterCacheFill.rows)

/-- C1: the claim states that after a successful sendMessage every cached
messages page for the conversation is invalidated, so a subsequent getMessages
never returns a cache entry written before the send. The code violates this:
sendMessage deletes only the base key while getMessages stores pages under
base:limit:offset, so the pre-send page entry survives and is served.
Evaluated at a concrete input: the send succeeds, yet the subsequent
getMessages is a cache hit (no task queued) returning the stale pre-send page
rather than the three post-send rows. -/
theorem c1_stale_page_served_after_send :
    sendAfterCacheFill.response.success = true ∧
    reloadAfterSend.queuedTasks = 0 ∧
    reloadAfterSend.response.data = [msg0] ∧
    sendAfterCacheFill.rows = [msg0, msgU, msgAi] ∧
    reloadAfterSend.response.data ≠ sendAfterCacheFill.rows := by
  refine ⟨rfl, rfl, by decide, by decide, by decide⟩

/-- Recursion core of withRetry (src/lib/api.ts lines 50-72), by remaining
retries: attempt the operation; on success return; on failure with retries
remaining, record the backoff delay baseDelay * 1.5 ^ attempt + jitter attempt
(the source adds Math.random() * 200 jitter) and try the next attempt; after
the final attempt surface that attempt's error. Delays are rationals since
the factor 1.5 is not integral; the returned list holds the delays slept, in
order. -/
def withRetryGo {α : Type} (operation : Nat → Except String α) (baseDelay : ℚ)
    (jitter : Nat → ℚ) : Nat → Nat → Except String α × List ℚ
  | attempt, 0 => (operation attempt, [])
  | attempt, remaining + 1 =>
    match operation attempt with
    | .ok v => (.ok v, [])
    | .error _ =>
      let d := baseDelay * (3 / 2 : ℚ) ^ attempt + jitter attempt
      let rest := withRetryGo operation baseDelay jitter (attempt + 1) remaining
      (rest.1, d :: rest.2)

/-- withRetry (src/lib/api.ts lines 50-72) with its source defaults
maxRetries = 2 and baseDelay = 500 supplied by callers: maxRetries + 1
attempts total, exponential backoff with jitter between attempts, last error
surfaced. Defined in api.ts but invoked by no facade operation. -/
def withRetry {α : Type} (operation : Nat → Except String α) (maxRetries : Nat)
    (baseDelay : ℚ) (jitter : Nat → ℚ) : Except String α × List ℚ :=
  withRetryGo operation baseDelay jitter 0 maxRetries

/-- A backend oracle that fails on the first attempt and succeeds on every
later one: a retried call would succeed, an unretried one fails. -/
def failThenOk : Nat → Except String (List Conversation) :=
  fun k => if k == 0 then .error "transient failure" else .ok []

/-- C2 counterexample: the claim states every facade operation wraps its
backend call in withRetry, re-attempting failures up to 2 more times and
surfacing only the final attempt's error. On an oracle whose first attempt
fails and second succeeds, withRetry succeeds, but api.getConversations
(authenticated, cold cache) makes exactly one backend call and surfaces the
first attempt's error as its result — the operation is not wrapped in the
retry helper. -/
theorem c2_counterexample_no_retry :
    (withRetry failThenOk 2 500 (fun _ => 0)).1 = .ok [] ∧
    (getConversationsApi (some "u1") [] 0 failThenOk).response.success = false ∧
    (getConversationsApi (some "u1") [] 0 failThenOk).response.error = some "transient failure" ∧
    (getConversationsApi (some "u1") [] 0 failThenOk).dataServiceCalls = 1 := by
  refine ⟨rfl, rfl, rfl, rfl⟩

/-- C2 amended: withRetry does implement the stated policy — up to 3 attempts,
delay baseDelay * 1.5 ^ attempt + jitter between attempts, only the final
attempt's error surfaced — but no facade operation uses it: each of
getConversations, getMessages, createConversation and sendMessage submits a
single backend attempt on a cache miss (exactly one queued task, consulting
only attempt 0 of its oracle) and surfaces that first attempt's error
directly. -/
theorem c2_retry_helper_unused :
    (∀ (α : Type) (op : Nat → Except String α) (base : ℚ) (jitter : Nat → ℚ),
      withRetry op 2 base jitter =
        match op 0 with
        | .ok v => (.ok v, [])
        | .error _ =>
          match op 1 with
          | .ok v => (.ok v, [base * (3 / 2 : ℚ) ^ 0 + jitter 0])
          | .error _ =>
            (op 2, [base * (3 / 2 : ℚ) ^ 0 + jitter 0, base * (3 / 2 : ℚ) ^ 1 + jitter 1])) ∧
    (∀ (u : String) (now : Nat) (backend : Nat → Except String (List Conversation)),
      (getConversationsApi (some u) [] now backend).queuedTasks = 1 ∧
      (getConversationsApi (some u) [] now backend).dataServiceCalls = 1 ∧
      (getConversationsApi (some u) [] now backend).response =
        match backend 0 with
        | .ok rows => ⟨rows, none, true⟩
        | .error e => ⟨[], some e, false⟩) ∧
    (∀ (cid : String) (now limit offset : Nat) (backend : Nat → Except String (List Message)),
      (getMessagesApi [] now cid limit offset backend).queuedTasks = 1 ∧
      (getMessagesApi [] now cid limit offset backend).response =
        match backend 0 with
        | .ok rows => ⟨queryMessagesRange rows limit offset, none, true⟩
        | .error e => ⟨[], some e, false⟩) ∧
    (∀ (u : String) (cache : Cache (List Conversation)) (insert : Nat → Except String Conversation),
      (createConversationApi (some u) cache insert).queuedTasks = 1 ∧
      (createConversationApi (some u) cache insert).response =
        match insert 0 with
        | .ok row => ⟨some row, none, true⟩
        | .error e => ⟨none, some e, false⟩) ∧
    (∀ (cid : String) (rows : List Message) (cache : Cache (List Message))
        (userInsert : Except String Message),
      (sendMessageApi cid rows cache userInsert (.error "timeout") (fun _ => .error "x")).queuedTasks = 1 ∧
      (sendMessageApi cid rows cache userInsert (.error "timeout") (fun _ => .error "x")).response.success = false) := by
  refine ⟨?_, ?_, ?_, ?_, ?_⟩
  · intro α op base jitter
    unfold withRetry withRetryGo
    cases h0 : op 0 <;> simp [h0, withRetryGo]
    cases h1 : op 1 <;> simp [h1, withRetryGo]
  · intro u now backend
    unfold getConversationsApi
    simp only [cacheGet, List.find?]
    cases h0 : backend 0 <;> simp [h0]
  · intro cid now limit offset backend
    unfold getMessagesApi
    simp only [cacheGet, List.find?]
    cases h0 : backend 0 <;> simp [h0]
  · intro u cache insert
    unfold createConversationApi
    cases h0 : insert 0 <;> simp [h0]
  · intro cid rows cache userInsert
    unfold sendMessageApi
    cases h0 : userInsert <;> simp [h0]

/-- Sample conversation row the insert oracle would return. -/
def conv1 : Conversation := ⟨"conv1", "u1", "New Conversation", 0, 0⟩

/-- C7 counterexample: the claim states every facade operation invoked without
a session fails fast without submitting any task to the request queue. In
api.createConversation the session check runs inside the queued task, so even
with no session exactly one task is submitted to the queue before the
operation fails. -/
theorem c7_counterexample_task_queued_without_session :
    (createConversationApi none [] (fun _ => .ok conv1)).queuedTasks = 1 ∧
    (createConversationApi none [] (fun _ => .ok conv1)).response.success = false := by
  exact ⟨rfl, rfl⟩

/-- C7 amended: the fail-fast-without-queuing behaviour holds only for
getConversations, which checks the session before cache and queue and returns
the authentication error with nothing queued and no backend call. In
createConversation the session check runs inside the queued task: one task is
always queued, though without a session the data service is not contacted and
the authentication error is surfaced. getMessages and sendMessage perform no
session check at all: they queue their task and contact the backend data
service regardless of authentication (the embedding gives them no session
parameter because the source never consults one). -/
theorem c7_fail_fast_only_in_get_conversations :
    (∀ (cache : Cache (List Conversation)) (now : Nat)
        (backend : Nat → Except String (List Conversation)),
      getConversationsApi none cache now backend =
        ⟨⟨[], some "User not authenticated", false⟩, cache, 0, 0⟩) ∧
    (∀ (cache : Cache (List Conversation)) (insert : Nat → Except String Conversation),
      createConversationApi none cache insert =
        ⟨⟨none, some "User not authenticated", false⟩, cache, 1, 0⟩) ∧
    (∀ (cid : String) (now limit offset : Nat) (backend : Nat → Except String (List Message)),
      (getMessagesApi [] now cid limit offset backend).queuedTasks = 1 ∧
      (getMessagesApi [] now cid limit offset backend).dataServiceCalls = 1) ∧
    (∀ (cid : String) (rows : List Message) (cache : Cache (List Message))
        (userInsert : Except String Message) (completion : Except String String)
        (aiInsert : String → Except String Message),
      (sendMessageApi cid rows cache userInsert completion aiInsert).queuedTasks = 1 ∧
      1 ≤ (sendMessageApi cid rows cache userInsert completion aiInsert).dataServiceCalls) := by
  refine ⟨fun cache now backend => rfl, fun cache insert => rfl, ?_, ?_⟩
  · intro cid now limit offset backend
    unfold getMessagesApi
    simp only [cacheGet, List.find?]
    cases h0 : backend 0 <;> simp [h0]
  · intro cid rows cache userInsert completion aiInsert
    unfold sendMessageApi
    cases userInsert <;> try simp
    cases completion <;> try simp
    cases aiInsert _ <;> simp

/-- The uniform result shape of spec section 7: success with no error string,
or failure carrying an error string. -/
def responseShape {α : Type} (r : ApiResponse α) : Prop :=
  (r.success = true ∧ r.error = none) ∨ (r.success = false ∧ ∃ e, r.error = some e)

/-- C8: every facade operation is total at its interface — for every input,
session, cache state and backend or completion outcome (including thrown
errors and the completion timeout, the .error oracle cases) the operation
returns a value of the uniform shape: success true with no error, or success
false with an error string. The embedding of each operation is a total
function into ApiResponse, so no exception reaches the caller. -/
theorem c8_facade_total_uniform_shape :
    (∀ (session : Option String) (cache : Cache (List Conversation)) (now : Nat)
        (backend : Nat → Except String (List Conversation)),
      responseShape (getConversationsApi session cache now backend).response) ∧
    (∀ (cache : Cache (List Message)) (now : Nat) (cid : String) (limit offset : Nat)
        (backend : Nat → Except String (List Message)),
      responseShape (getMessagesApi cache now cid limit offset backend).response) ∧
    (∀ (session : Option String) (cache : Cache (List Conversation))
        (insert : Nat → Except String Conversation),
      responseShape (createConversationApi session cache insert).response) ∧
    (∀ (cid : String) (rows : List Message) (cache : Cache (List Message))
        (userInsert : Except String Message) (completion : Except String String)
        (aiInsert : String → Except String Message),
      responseShape (sendMessageApi cid rows cache userInsert completion aiInsert).response) := by
  refine ⟨?_, ?_, ?_, ?_⟩
  · intro session cache now backend
    unfold getConversationsApi responseShape
    cases session <;> simp
    cases cacheGet cache _ now <;> simp
    cases backend 0 <;> simp
  · intro cache now cid limit offset backend
    simp only [getMessagesApi, responseShape]
    split
    · simp
    · split <;> simp
  · intro session cache insert
    unfold createConversationApi responseShape
    cases session <;> simp
    cases insert 0 <;> simp
  · intro cid rows cache userInsert completion aiInsert
    unfold sendMessageApi responseShape
    cases userInsert <;> simp
    cases completion <;> simp
    cases aiInsert _ <;> simp

/-- The chat store's state slice the claims concern (src/store/chatStore.ts,
ExtendedChatState): the current conversation is kept by id (the source stores
the whole Conversation row; only its id is read by the actions modelled
here). -/
structure StoreState where
  currentConversation : Option String
  messages : List Message
  isLoading : Bool
  isTyping : Bool
  error : Option String
  hasMoreMessages : Bool
  messageOffset : Nat
  optimisticMessages : List Message
deriving DecidableEq

/-- The store's initialState (src/store/chatStore.ts). -/
def storeInitial : StoreState :=
  { currentConversation := none, messages := [], isLoading := false, isTyping := false,
    error := none, hasMoreMessages := false, messageOffset := 0, optimisticMessages := [] }

/-- setCurrentConversation (src/store/chatStore.ts lines 42-58) together with
the synchronous prefix of the loadMessages it fires: the switch resets
messages, offset, hasMoreMessages and the optimistic set, and when a
conversation is selected, loadMessages runs up to its await, setting
isLoading and clearing error. The awaited response arrives later as a
separate loadMessagesResolveStep event. -/
def setCurrentConversationStep (s : StoreState) (conversation : Option String) : StoreState :=
  let s1 := { s with
    currentConversation := conversation
    messages := []
    messageOffset := 0
    hasMoreMessages := false
    optimisticMessages := [] }
  match conversation with
  | some _ => { s1 with isLoading := true, error := none }
  | none => s1

/-- Continuation of loadMessages after its await (src/store/chatStore.ts
lines 84-99): on success the response data replaces messages and sets offset
and hasMoreMessages; on failure the error is recorded; finally isLoading is
cleared. The conversationId argument is the id the in-flight request
targeted; the source never compares it with the current conversation, which
is exactly the missing relevance guard. -/
def loadMessagesResolveStep (s : StoreState) (conversationId : String)
    (resp : ApiResponse (List Message)) : StoreState :=
  let _ := conversationId
  let s1 :=
    if resp.success then
      { s with
        messages := resp.data
        messageOffset := resp.data.length
        hasMoreMessages := resp.data.length == 50 }
    else { s with error := resp.error }
  { s1 with isLoading := false }

/-- A message belonging to conversation A, returned by A's slow load. -/
def msgOfA : Message := ⟨"a1", "A", "from A", "user", 1⟩

/-- A message belonging to conversation B, returned by B's fast load. -/
def msgOfB : Message := ⟨"b1", "B", "from B", "user", 1⟩

/-- The interleaving of the race: switch to A (its load starts), switch to B
before A's load resolves (B's load starts), B's load resolves, then A's
late response arrives. -/
def c4FinalState : StoreState :=
  loadMessagesResolveStep
    (loadMessagesResolveStep
      (setCurrentConversationStep
        (setCurrentConversationStep storeInitial (some "A")) (some "B"))
      "B" ⟨[msgOfB], none, true⟩)
    "A" ⟨[msgOfA], none, true⟩

/-- C4: the claim states a late-arriving response of a load for conversation A
is never applied once the store has switched to conversation B, so after both
loads settle the displayed messages are B's. The code has no relevance check
on load completion: in the interleaving where A's response arrives after B's,
the final state shows conversation B as current but A's messages — the stale
data is applied. Evaluated at that concrete interleaving. -/
theorem c4_stale_load_applied_after_switch :
    c4FinalState.currentConversation = some "B" ∧
    c4FinalState.messages = [msgOfA] ∧
    msgOfA.conversation_id = "A" ∧
    c4FinalState.messages ≠ [msgOfB] := by
  refine ⟨rfl, by decide, rfl, by decide⟩

/-- The two result shapes the store's send path distinguishes
(src/store/chatStore.ts lines 148-178): the backend either returned both the
persisted user message and the assistant reply (an array) or only the
assistant reply. -/
inductive SendData where
  | pair (userMessage aiMessage : Message)
  | single (aiMessage : Message)
deriving DecidableEq

/-- The optimistic user message (src/store/chatStore.ts lines 132-138): its id
is derived solely from the wall clock, temp-user- followed by Date.now(). -/
def tempUserMessage (conversationId content : String) (now : Nat) : Message :=
  { id := "temp-user-" ++ toString now, conversation_id := conversationId,
    content := content, role := "user", created_at := now }

/-- Synchronous prefix of the store's sendMessage before its await
(src/store/chatStore.ts lines 130-143): set typing, clear error, append the
optimistic message to messages and optimisticMessages. -/
def sendMessageOptimistic (s : StoreState) (conversationId content : String)
    (now : Nat) : StoreState :=
  { s with
    isTyping := true
    error := none
    messages := s.messages ++ [tempUserMessage conversationId content now]
    optimisticMessages := s.optimisticMessages ++ [tempUserMessage conversationId content now] }

/-- The failure branch of the store's sendMessage (src/store/chatStore.ts
lines 179-186 and the catch at 187-192): record the error and remove every
message whose id equals the optimistic temporary id from both lists. -/
def sendMessageRollback (s : StoreState) (tempId : String) (err : Option String) : StoreState :=
  { s with
    error := err
    messages := s.messages.filter (fun m => m.id != tempId)
    optimisticMessages := s.optimisticMessages.filter (fun m => m.id != tempId) }

/-- Continuation of the store's sendMessage after its await
(src/store/chatStore.ts lines 146-196): on success with data, reconcile
according to the data shape; otherwise roll back with the response's error;
finally clear the typing flag. -/
def sendMessageResolve (s : StoreState) (tempId : String)
    (resp : ApiResponse (Option SendData)) : StoreState :=
  let s1 :=
    if resp.success then
      match resp.data with
      | some (.pair userMessage aiMessage) =>
        { s with
          messages := s.messages.filter (fun m => m.id != tempId) ++ [userMessage, aiMessage]
          optimisticMessages := s.optimisticMessages.filter (fun m => m.id != tempId) }
      | some (.single aiMessage) =>
        { s with
          messages := s.messages ++ [aiMessage]
          optimisticMessages := s.optimisticMessages.filter (fun m => m.id != tempId) }
      | none => sendMessageRollback s tempId resp.error
    else sendMessageRollback s tempId resp.error
  { s1 with isTyping := false }

/-- The store's sendMessage run to completion with a given facade response:
optimistic phase, then the resolve continuation keyed to the optimistic
message the call created. -/
def sendMessageStore (s : StoreState) (conversationId content : String) (now : Nat)
    (resp : ApiResponse (Option SendData)) : StoreState :=
  sendMessageResolve (sendMessageOptimistic s conversationId content now)
    (tempUserMessage conversationId content now).id resp

/-- Filtering away an id carried by no element of a message list leaves the
list unchanged. -/
theorem filterNeIdSelf (l : List Message) (tid : String)
    (h : ∀ m ∈ l, m.id ≠ tid) : l.filter (fun m => m.id != tid) = l :=
  List.filter_eq_self.mpr (fun m hm => by simpa using h m hm)

/-- A still-pending optimistic message of an earlier send begun at wall-clock
millisecond 5. -/
def earlierOptimistic : Message := tempUserMessage "conv1" "first" 5

/-- Store state holding that earlier optimistic message when a second send
starts in the same millisecond. -/
def c5State : StoreState :=
  { storeInitial with messages := [earlierOptimistic], optimisticMessages := [earlierOptimistic] }

/-- C5 counterexample: the claim quantifies over every store state; in a state
still holding an optimistic message of an earlier send begun in the same
millisecond, the rollback of a second, failing send filters by the shared
temp-user id and removes both entries, so the message sequence after rollback
(empty) differs by content from the sequence before the failed send was
attempted (the earlier content). -/
theorem c5_counterexample_rollback_not_identical :
    (sendMessageStore c5State "conv1" "second" 5
      ⟨none, some "network error", false⟩).messages.map Message.content = [] ∧
    c5State.messages.map Message.content = ["first"] ∧
    (sendMessageStore c5State "conv1" "second" 5
      ⟨none, some "network error", false⟩).messages.map Message.content ≠
      c5State.messages.map Message.content := by
  refine ⟨by decide, by decide, by decide⟩

/-- C5 (amended): for every store state in which no existing message carries
the send's optimistic temporary id — guaranteed unless another optimistic send
begun in the same millisecond is still pending — a sendMessage whose facade
call fails rolls back exactly: the message sequence afterwards equals the
sequence before the send (hence equal by content), no message with the
optimistic id remains in messages or optimisticMessages, and the facade's
error string is recorded. -/
theorem c5_failed_send_rolls_back_exactly (s : StoreState) (cid content : String) (now : Nat)
    (e : String) (resp : ApiResponse (Option SendData))
    (hfail : resp.success = false) (herr : resp.error = some e)
    (hfresh : ∀ m ∈ s.messages, m.id ≠ (tempUserMessage cid content now).id) :
    (sendMessageStore s cid content now resp).messages = s.messages ∧
    (sendMessageStore s cid content now resp).messages.map Message.content =
      s.messages.map Message.content ∧
    (∀ m ∈ (sendMessageStore s cid content now resp).messages,
      m.id ≠ (tempUserMessage cid content now).id) ∧
    (∀ m ∈ (sendMessageStore s cid content now resp).optimisticMessages,
      m.id ≠ (tempUserMessage cid content now).id) ∧
    (sendMessageStore s cid content now resp).error = some e := by
  have hmsg : (sendMessageStore s cid content now resp).messages = s.messages := by
    simp [sendMessageStore, sendMessageOptimistic, sendMessageResolve, sendMessageRollback,
      hfail, List.filter_append, filterNeIdSelf s.messages _ hfresh]
  refine ⟨hmsg, by rw [hmsg], ?_, ?_, ?_⟩
  · rw [hmsg]; exact hfresh
  · intro m hm
    have hopt : (sendMessageStore s cid content now resp).optimisticMessages =
        (s.optimisticMessages ++ [tempUserMessage cid content now]).filter
          (fun x => x.id != (tempUserMessage cid content now).id) := by
      simp [sendMessageStore, sendMessageOptimistic, sendMessageResolve, sendMessageRollback, hfail]
    rw [hopt] at hm
    simpa using (List.of_mem_filter hm)
  · simp [sendMessageStore, sendMessageOptimistic, sendMessageResolve, sendMessageRollback,
      hfail, herr]

/-- Store state holding one server-issued message, used to instantiate the
rollback theorem. -/
def c5WitnessState : StoreState := { storeInitial with messages := [msg0] }

/-- C5 witness: the rollback theorem applied to a concrete failed send on a
store holding one server message. -/
theorem c5_failed_send_rolls_back_exactly_witness :
    (((⟨none, some "boom", false⟩ : ApiResponse (Option SendData))).success = false ∧
     ((⟨none, some "boom", false⟩ : ApiResponse (Option SendData))).error = some "boom" ∧
     (∀ m ∈ c5WitnessState.messages, m.id ≠ (tempUserMessage "conv1" "hi" 7).id)) ∧
    ((sendMessageStore c5WitnessState "conv1" "hi" 7 ⟨none, some "boom", false⟩).messages =
      c5WitnessState.messages ∧
    (sendMessageStore c5WitnessState "conv1" "hi" 7 ⟨none, some "boom", false⟩).messages.map
      Message.content = c5WitnessState.messages.map Message.content ∧
    (∀ m ∈ (sendMessageStore c5WitnessState "conv1" "hi" 7 ⟨none, some "boom", false⟩).messages,
      m.id ≠ (tempUserMessage "conv1" "hi" 7).id) ∧
    (∀ m ∈ (sendMessageStore c5WitnessState "conv1" "hi" 7
        ⟨none, some "boom", false⟩).optimisticMessages,
      m.id ≠ (tempUserMessage "conv1" "hi" 7).id) ∧
    (sendMessageStore c5WitnessState "conv1" "hi" 7 ⟨none, some "boom", false⟩).error =
      some "boom") :=
  ⟨⟨rfl, rfl, by decide⟩,
    c5_failed_send_rolls_back_exactly c5WitnessState "conv1" "hi" 7 "boom"
      ⟨none, some "boom", false⟩ rfl rfl (by decide)⟩

/-- C10: the optimistic temporary id is derived solely from the wall clock, so
two sendMessage calls issued within the same millisecond create optimistic
messages with identical ids (whatever their contents), and the id-keyed
rollback of the second send then removes both entries from messages and
optimisticMessages, restoring the lists to their pre-send values — both
optimistic messages are gone, not just the rolled-back one. -/
theorem c10_same_millisecond_ids_collide (s : StoreState) (cid c1 c2 e : String) (now : Nat)
    (hm : ∀ m ∈ s.messages, m.id ≠ (tempUserMessage cid c2 now).id)
    (ho : ∀ m ∈ s.optimisticMessages, m.id ≠ (tempUserMessage cid c2 now).id) :
    (tempUserMessage cid c1 now).id = (tempUserMessage cid c2 now).id ∧
    (sendMessageResolve (sendMessageOptimistic (sendMessageOptimistic s cid c1 now) cid c2 now)
      (tempUserMessage cid c2 now).id ⟨none, some e, false⟩).messages = s.messages ∧
    (sendMessageResolve (sendMessageOptimistic (sendMessageOptimistic s cid c1 now) cid c2 now)
      (tempUserMessage cid c2 now).id
      ⟨none, some e, false⟩).optimisticMessages = s.optimisticMessages := by
  refine ⟨rfl, ?_, ?_⟩
  · simp [sendMessageResolve, sendMessageOptimistic, sendMessageRollback, tempUserMessage,
      List.filter_append]
    simpa [tempUserMessage] using filterNeIdSelf s.messages _ hm
  · simp [sendMessageResolve, sendMessageOptimistic, sendMessageRollback, tempUserMessage,
      List.filter_append]
    simpa [tempUserMessage] using filterNeIdSelf s.optimisticMessages _ ho

/-- C10 witness: two sends with contents first and second in millisecond 5 on
a store holding one server message; rolling the second back removes both
optimistic entries. -/
theorem c10_same_millisecond_ids_collide_witness :
    ((∀ m ∈ c5WitnessState.messages, m.id ≠ (tempUserMessage "conv1" "second" 5).id) ∧
     (∀ m ∈ c5WitnessState.optimisticMessages, m.id ≠ (tempUserMessage "conv1" "second" 5).id)) ∧
    ((tempUserMessage "conv1" "first" 5).id = (tempUserMessage "conv1" "second" 5).id ∧
     (sendMessageResolve
        (sendMessageOptimistic (sendMessageOptimistic c5WitnessState "conv1" "first" 5)
          "conv1" "second" 5)
        (tempUserMessage "conv1" "second" 5).id
        ⟨none, some "network error", false⟩).messages = c5WitnessState.messages ∧
     (sendMessageResolve
        (sendMessageOptimistic (sendMessageOptimistic c5WitnessState "conv1" "first" 5)
          "conv1" "second" 5)
        (tempUserMessage "conv1" "second" 5).id
        ⟨none, some "network error", false⟩).optimisticMessages =
       c5WitnessState.optimisticMessages) :=
  ⟨⟨by decide, by decide⟩,
    c10_same_millisecond_ids_collide c5WitnessState "conv1" "first" "second" "network error" 5
      (by decide) (by decide)⟩

/-- C9: api.sendMessage persists the user's message before invoking the
completion endpoint, and whenever the send then fails — the completion call
failing (including on timeout) or the assistant-message insert failing — the
already-persisted user row is neither deleted nor compensated: the relation
keeps the row while the call reports a uniform failure. The store's rollback
then removes only the optimistic copy, so the backend holds a user message
absent from the in-memory sequence, and the next page load (a cache miss)
returns a page containing it. The failure hypothesis only fixes the
response's success flag, so both failing branches are covered. -/
theorem c9_failed_send_leaves_orphan_user_row
    (rows : List Message) (cache : Cache (List Message)) (userRow : Message)
    (completion : Except String String) (aiInsert : String → Except String Message)
    (s : StoreState) (cid content : String) (now loadTime : Nat)
    (hfail : (sendMessageApi cid rows cache (.ok userRow) completion aiInsert).response.success
      = false)
    (hfreshTemp : ∀ m ∈ s.messages, m.id ≠ (tempUserMessage cid content now).id)
    (hfreshRow : userRow.id ∉ s.messages.map Message.id)
    (hlen : rows.length < 50) :
    (∃ e, (sendMessageApi cid rows cache (.ok userRow) completion aiInsert).response =
      ⟨none, some e, false⟩) ∧
    (sendMessageApi cid rows cache (.ok userRow) completion aiInsert).rows =
      rows ++ [userRow] ∧
    (sendMessageStore s cid content now
      ⟨none, (sendMessageApi cid rows cache (.ok userRow) completion aiInsert).response.error,
        false⟩).messages = s.messages ∧
    userRow.id ∉ (sendMessageStore s cid content now
      ⟨none, (sendMessageApi cid rows cache (.ok userRow) completion aiInsert).response.error,
        false⟩).messages.map Message.id ∧
    userRow ∈ (getMessagesApi [] loadTime cid 50 0
      (fun _ => .ok (sendMessageApi cid rows cache (.ok userRow) completion aiInsert).rows)
      ).response.data := by
  have hmsg : ∀ err : Option String,
      (sendMessageStore s cid content now
        (⟨none, err, false⟩ : ApiResponse (Option SendData))).messages = s.messages := by
    intro err
    simp [sendMessageStore, sendMessageOptimistic, sendMessageResolve, sendMessageRollback,
      List.filter_append, filterNeIdSelf s.messages _ hfreshTemp]
  have hrows : (sendMessageApi cid rows cache (.ok userRow) completion aiInsert).rows =
      rows ++ [userRow] := by
    rcases completion with e | reply
    · rfl
    · rcases hai : aiInsert reply with e | aiMsg
      · simp [sendMessageApi, hai]
      · exact absurd hfail (by simp [sendMessageApi, hai])
  have hresp : ∃ e,
      (sendMessageApi cid rows cache (.ok userRow) completion aiInsert).response =
        ⟨none, some e, false⟩ := by
    rcases completion with e | reply
    · exact ⟨e, rfl⟩
    · rcases hai : aiInsert reply with e | aiMsg
      · exact ⟨e, by simp [sendMessageApi, hai]⟩
      · exact absurd hfail (by simp [sendMessageApi, hai])
  refine ⟨hresp, hrows, hmsg _, ?_, ?_⟩
  · rw [hmsg _]
    exact hfreshRow
  · have hpage : (getMessagesApi [] loadTime cid 50 0
        (fun _ => .ok (sendMessageApi cid rows cache (.ok userRow) completion aiInsert).rows)
        ).response.data = (rows ++ [userRow]).take 50 := by
      simp [getMessagesApi, cacheGet, queryMessagesRange, hrows]
    rw [hpage, List.take_of_length_le (by simpa using Nat.succ_le_of_lt hlen)]
    exact List.mem_append_right rows (List.mem_singleton_self userRow)

/-- C9 witness: a send on a one-row conversation whose completion call
succeeds but whose assistant-message insert fails, resolved against a store
holding that same row — the assistant-insert-failure branch of the claim. -/
theorem c9_failed_send_leaves_orphan_user_row_witness :
    ((sendMessageApi "conv1" [msg0] [] (.ok msgU) (.ok "reply text")
        (fun _ => .error "insert failed")).response.success = false ∧
     (∀ m ∈ c5WitnessState.messages, m.id ≠ (tempUserMessage "conv1" "again" 9).id) ∧
     msgU.id ∉ c5WitnessState.messages.map Message.id ∧
     ([msg0] : List Message).length < 50) ∧
    ((∃ e, (sendMessageApi "conv1" [msg0] [] (.ok msgU) (.ok "reply text")
        (fun _ => .error "insert failed")).response = ⟨none, some e, false⟩) ∧
     (sendMessageApi "conv1" [msg0] [] (.ok msgU) (.ok "reply text")
        (fun _ => .error "insert failed")).rows = [msg0] ++ [msgU] ∧
     (sendMessageStore c5WitnessState "conv1" "again" 9
        ⟨none, (sendMessageApi "conv1" [msg0] [] (.ok msgU) (.ok "reply text")
          (fun _ => .error "insert failed")).response.error, false⟩).messages =
       c5WitnessState.messages ∧
     msgU.id ∉ (sendMessageStore c5WitnessState "conv1" "again" 9
        ⟨none, (sendMessageApi "conv1" [msg0] [] (.ok msgU) (.ok "reply text")
          (fun _ => .error "insert failed")).response.error, false⟩).messages.map Message.id ∧
     msgU ∈ (getMessagesApi [] 11 "conv1" 50 0
        (fun _ => .ok (sendMessageApi "conv1" [msg0] [] (.ok msgU) (.ok "reply text")
          (fun _ => .error "insert failed")).rows)).response.data) :=
  ⟨⟨rfl, by decide, by decide, by decide⟩,
    c9_failed_send_leaves_orphan_user_row [msg0] [] msgU (.ok "reply text")
      (fun _ => .error "insert failed") c5WitnessState "conv1" "again" 9 11
      rfl (by decide) (by decide) (by decide)⟩

/-- The store's loadMessages run sequentially to completion against a cold
page cache (src/store/chatStore.ts lines 79-100): set loading, fetch page
(limit 50, offset 0) through api.getMessages, then apply the resolve
continuation. -/
def loadMessagesStore (s : StoreState) (conversationId : String)
    (rows : List Message) : StoreState :=
  let resp := (getMessagesApi [] 0 conversationId 50 0 (fun _ => .ok rows)).response
  loadMessagesResolveStep { s with isLoading := true, error := none, messageOffset := 0 }
    conversationId resp

/-- The store's loadMoreMessages run sequentially to completion against a cold
page cache (src/store/chatStore.ts lines 102-126): bail out while a load is in
flight; otherwise fetch the page at the current offset of the ascending query
and prepend it before the existing messages, advancing the offset. -/
def loadMoreMessagesStore (s : StoreState) (conversationId : String)
    (rows : List Message) : StoreState :=
  if s.isLoading then s
  else
    let resp := (getMessagesApi [] 0 conversationId 50 s.messageOffset
      (fun _ => .ok rows)).response
    if resp.success then
      { s with
        messages := resp.data ++ s.messages
        messageOffset := s.messageOffset + resp.data.length
        hasMoreMessages := resp.data.length == 50
        isLoading := false }
    else { s with error := resp.error, isLoading := false }

/-- Oldest-first order check: each adjacent pair of messages is ordered by
creation timestamp. -/
def sortedByCreatedAt : List Message → Bool
  | [] => true
  | [_] => true
  | a :: b :: rest => decide (a.created_at ≤ b.created_at) && sortedByCreatedAt (b :: rest)

/-- A conversation of 51 messages with ascending creation timestamps 0..50,
as the backend's ascending-ordered relation presents them. -/
def ascRows : List Message :=
  (List.range 51).map (fun i => ⟨"m" ++ toString i, "convLong", "body", "user", i⟩)

/-- C6: each page getMessages returns is ordered oldest-first (checked here
for both pages of this conversation), but the store does not stay sorted: on
a 51-message conversation, loadMessages yields the oldest 50 messages, and
the following loadMoreMessages fetches the page at the next higher offset of
the ascending query — the newest message — and prepends it before the
existing ones, so the store's concatenated sequence is no longer ordered by
creation timestamp. Evaluated at that concrete input. -/
theorem c6_load_more_breaks_ordering :
    sortedByCreatedAt ascRows = true ∧
    sortedByCreatedAt
      (getMessagesApi [] 0 "convLong" 50 0 (fun _ => .ok ascRows)).response.data = true ∧
    sortedByCreatedAt
      (getMessagesApi [] 0 "convLong" 50 50 (fun _ => .ok ascRows)).response.data = true ∧
    (loadMessagesStore storeInitial "convLong" ascRows).messages.length = 50 ∧
    sortedByCreatedAt (loadMessagesStore storeInitial "convLong" ascRows).messages = true ∧
    sortedByCreatedAt
      (loadMoreMessagesStore (loadMessagesStore storeInitial "convLong" ascRows)
        "convLong" ascRows).messages = false := by
  refine ⟨by decide, by decide, by decide, by decide, by decide, by decide⟩

/-- The request queue's fixed concurrency bound (src/lib/api.ts line 10,
maxConcurrent = 5). -/
def maxConcurrent : Nat := 5

/-- Scheduler view of the RequestQueue (src/lib/api.ts lines 7-45): tasks
awaiting admission in FIFO order, tasks currently executing, and tasks already
settled, in settlement order. Tasks are identified by numeric ids; each id
stands for one submitted task together with its promise handle, and an id's
appearance in the settled list records that handle resolving or rejecting. -/
structure QueueState where
  pending : List Nat
  running : List Nat
  done : List Nat
deriving DecidableEq

/-- The admission loop of RequestQueue.process (src/lib/api.ts lines 32-41):
while the queue is non-empty and fewer than maxConcurrent tasks are in flight,
dequeue the next task (FIFO) and start it. Returns the new pending and running
lists. -/
def admissionLoop : List Nat → List Nat → List Nat × List Nat
  | [], running => ([], running)
  | t :: rest, running =>
    if running.length < maxConcurrent then admissionLoop rest (running ++ [t])
    else (t :: rest, running)

/-- RequestQueue.process applied to a state. The processing flag of the source
only guards re-entry into the synchronous loop within one event-loop turn and
has no effect observable between events. -/
def processQueue (s : QueueState) : QueueState :=
  { s with
    pending := (admissionLoop s.pending s.running).1
    running := (admissionLoop s.pending s.running).2 }

/-- An observable event of the queue: an add call (src/lib/api.ts lines 13-25,
push then process) or the settlement of a running task (the finally callback
at lines 36-39: decrement, record the settlement, process again). -/
inductive QueueEvent where
  | add (t : Nat)
  | finish (t : Nat)
deriving DecidableEq

/-- One event applied to a queue state. A finish event for a task that is not
running is ignored: no such callback exists. -/
def queueStep (s : QueueState) : QueueEvent → QueueState
  | .add t => processQueue { s with pending := s.pending ++ [t] }
  | .finish t =>
    if t ∈ s.running then
      processQueue { s with running := s.running.erase t, done := s.done ++ [t] }
    else s

/-- A run of the queue from a state over an event sequence. -/
def queueRun (s : QueueState) (events : List QueueEvent) : QueueState :=
  events.foldl queueStep s

/-- The queue's initial state: nothing pending, running or settled. -/
def queueInitial : QueueState := ⟨[], [], []⟩

/-- The ids submitted by the add events of a sequence, in submission order. -/
def addedIds : List QueueEvent → List Nat
  | [] => []
  | .add t :: rest => t :: addedIds rest
  | .finish _ :: rest => addedIds rest

/-- The admission loop never grows the running set beyond the bound. -/
theorem admissionLoop_length_le (ps : List Nat) :
    ∀ r : List Nat, r.length ≤ maxConcurrent →
      (admissionLoop ps r).2.length ≤ maxConcurrent := by
  induction ps with
  | nil => intro r h; exact h
  | cons t rest ih =>
    intro r h
    simp only [admissionLoop]
    by_cases hlt : r.length < maxConcurrent
    · rw [if_pos hlt]
      exact ih (r ++ [t]) (by simp; omega)
    · rw [if_neg hlt]
      exact h

/-- When the admission loop leaves tasks pending, the running set is full. -/
theorem admissionLoop_full_of_ne_nil (ps : List Nat) :
    ∀ r : List Nat, (admissionLoop ps r).1 ≠ [] →
      maxConcurrent ≤ (admissionLoop ps r).2.length := by
  induction ps with
  | nil => intro r h; simp [admissionLoop] at h
  | cons t rest ih =>
    intro r h
    simp only [admissionLoop] at h ⊢
    by_cases hlt : r.length < maxConcurrent
    · rw [if_pos hlt] at h ⊢
      exact ih _ h
    · rw [if_neg hlt]
      show maxConcurrent ≤ r.length
      omega

/-- The admission loop only moves tasks between the two lists. -/
theorem admissionLoop_perm (ps : List Nat) :
    ∀ r : List Nat,
      List.Perm ((admissionLoop ps r).1 ++ (admissionLoop ps r).2) (ps ++ r) := by
  induction ps with
  | nil => intro r; simp [admissionLoop]
  | cons t rest ih =>
    intro r
    simp only [admissionLoop]
    by_cases hlt : r.length < maxConcurrent
    · rw [if_pos hlt]
      refine (ih (r ++ [t])).trans ?_
      have h3 : List.Perm (rest ++ (r ++ [t])) ((t :: rest) ++ r) := by
        rw [← List.append_assoc, List.cons_append]
        exact List.perm_append_comm
      exact h3
    · rw [if_neg hlt]

/-- Queue invariant: never more than maxConcurrent tasks running, and tasks
wait in pending only while the running set is full. -/
def QueueInv (s : QueueState) : Prop :=
  s.running.length ≤ maxConcurrent ∧ (s.pending ≠ [] → maxConcurrent ≤ s.running.length)

/-- Processing a state with a within-bound running set restores the
invariant. -/
theorem processQueue_inv (s : QueueState) (h : s.running.length ≤ maxConcurrent) :
    QueueInv (processQueue s) := by
  constructor
  · exact admissionLoop_length_le s.pending s.running h
  · intro hne
    exact admissionLoop_full_of_ne_nil s.pending s.running hne

/-- Every event preserves the queue invariant. -/
theorem queueStep_inv (s : QueueState) (e : QueueEvent) (h : QueueInv s) :
    QueueInv (queueStep s e) := by
  cases e with
  | add t => exact processQueue_inv { s with pending := s.pending ++ [t] } h.1
  | finish t =>
    by_cases hmem : t ∈ s.running
    · have hq : queueStep s (QueueEvent.finish t) =
          processQueue { s with running := s.running.erase t, done := s.done ++ [t] } := by
        simp only [queueStep, if_pos hmem]
      rw [hq]
      refine processQueue_inv _ ?_
      exact le_trans (List.Sublist.length_le (List.erase_sublist t s.running)) h.1
    · have hq : queueStep s (QueueEvent.finish t) = s := by
        simp only [queueStep, if_neg hmem]
      rw [hq]
      exact h

/-- Every run preserves the queue invariant. -/
theorem queueRun_inv (events : List QueueEvent) :
    ∀ s : QueueState, QueueInv s → QueueInv (queueRun s events) := by
  induction events with
  | nil => intro s h; exact h
  | cons e rest ih => intro s h; exact ih (queueStep s e) (queueStep_inv s e h)

/-- The multiset of task ids a queue state accounts for: pending, running and
settled together. -/
def queueContents (s : QueueState) : Multiset Nat :=
  (s.pending : Multiset Nat) + (s.running : Multiset Nat) + (s.done : Multiset Nat)

/-- Processing moves tasks but neither creates nor loses any. -/
theorem processQueue_contents (s : QueueState) :
    queueContents (processQueue s) = queueContents s := by
  show ((admissionLoop s.pending s.running).1 : Multiset Nat) +
      ↑(admissionLoop s.pending s.running).2 + ↑s.done =
    (↑s.pending + ↑s.running + ↑s.done : Multiset Nat)
  simp only [Multiset.coe_add, Multiset.coe_eq_coe]
  exact (admissionLoop_perm s.pending s.running).append_right s.done

/-- An add event contributes exactly its task id to the accounted tasks. -/
theorem queueStep_contents_add (s : QueueState) (t : Nat) :
    queueContents (queueStep s (QueueEvent.add t)) = queueContents s + {t} := by
  show queueContents (processQueue { s with pending := s.pending ++ [t] }) = _
  rw [processQueue_contents]
  show ((s.pending ++ [t] : List Nat) : Multiset Nat) + ↑s.running + ↑s.done =
    (↑s.pending + ↑s.running + ↑s.done : Multiset Nat) + {t}
  simp only [← Multiset.coe_add, Multiset.coe_singleton]
  abel

/-- A finish event moves a task from running to settled, leaving the
accounted tasks unchanged; a finish for a non-running task changes nothing. -/
theorem queueStep_contents_finish (s : QueueState) (t : Nat) :
    queueContents (queueStep s (QueueEvent.finish t)) = queueContents s := by
  by_cases hmem : t ∈ s.running
  · have hq : queueStep s (QueueEvent.finish t) =
        processQueue { s with running := s.running.erase t, done := s.done ++ [t] } := by
      simp only [queueStep, if_pos hmem]
    rw [hq, processQueue_contents]
    show (↑s.pending : Multiset Nat) + ↑(s.running.erase t) + ↑(s.done ++ [t]) =
      (↑s.pending + ↑s.running + ↑s.done : Multiset Nat)
    have herase : (↑(s.running.erase t) : Multiset Nat) + {t} = ↑s.running := by
      rw [← Multiset.coe_erase, add_comm, Multiset.singleton_add]
      exact Multiset.cons_erase (Multiset.mem_coe.mpr hmem)
    rw [← herase]
    simp only [← Multiset.coe_add, Multiset.coe_singleton]
    abel
  · have hq : queueStep s (QueueEvent.finish t) = s := by
      simp only [queueStep, if_neg hmem]
    rw [hq]

/-- A run adds exactly the ids of its add events to the accounted tasks. -/
theorem queueRun_contents (events : List QueueEvent) :
    ∀ s : QueueState,
      queueContents (queueRun s events) = queueContents s + ↑(addedIds events) := by
  induction events with
  | nil => intro s; simp [queueRun, addedIds]
  | cons e rest ih =>
    intro s
    have h1 : queueContents (queueRun s (e :: rest)) =
        queueContents (queueStep s e) + ↑(addedIds rest) := ih (queueStep s e)
    cases e with
    | add t =>
      rw [h1, queueStep_contents_add]
      show queueContents s + {t} + ↑(addedIds rest) =
        queueContents s + ((t :: addedIds rest : List Nat) : Multiset Nat)
      rw [← Multiset.cons_coe, ← Multiset.singleton_add]
      abel
    | finish t =>
      rw [h1, queueStep_contents_finish]
      rfl

/-- Splitting an event sequence splits its submitted ids. -/
theorem addedIds_append (es fs : List QueueEvent) :
    addedIds (es ++ fs) = addedIds es ++ addedIds fs := by
  induction es with
  | nil => rfl
  | cons e rest ih => cases e <;> simp [addedIds, ih]

/-- A sequence of settlement events submits no ids. -/
theorem addedIds_nil_of_finishes (fs : List QueueEvent)
    (h : ∀ e ∈ fs, ∃ t, e = QueueEvent.finish t) : addedIds fs = [] := by
  induction fs with
  | nil => rfl
  | cons e rest ih =>
    obtain ⟨t, ht⟩ := h e (List.mem_cons_self e rest)
    subst ht
    exact ih (fun x hx => h x (List.mem_cons_of_mem _ hx))

/-- Drain lemma: from any state satisfying the invariant, some sequence of
settlement events empties both the pending and the running lists — the
admission loop re-runs after every settlement, so nothing can be stranded. -/
theorem queueDrain (n : Nat) :
    ∀ s : QueueState, QueueInv s → s.pending.length + s.running.length ≤ n →
      ∃ fs : List QueueEvent,
        (∀ e ∈ fs, ∃ t, e = QueueEvent.finish t) ∧
        (queueRun s fs).pending = [] ∧ (queueRun s fs).running = [] := by
  induction n with
  | zero =>
    intro s hinv hsize
    refine ⟨[], by simp, ?_, ?_⟩
    · show s.pending = []
      exact List.length_eq_zero.mp (by omega)
    · show s.running = []
      exact List.length_eq_zero.mp (by omega)
  | succ n ih =>
    intro s hinv hsize
    cases hrun : s.running with
    | nil =>
      have hpend : s.pending = [] := by
        by_contra hne
        have hfull := hinv.2 hne
        rw [hrun] at hfull
        simp [maxConcurrent] at hfull
      exact ⟨[], by simp, hpend, hrun⟩
    | cons t rest =>
      have hmem : t ∈ s.running := by rw [hrun]; exact List.mem_cons_self t rest
      have hq : queueStep s (QueueEvent.finish t) =
          processQueue { s with running := s.running.erase t, done := s.done ++ [t] } := by
        simp only [queueStep, if_pos hmem]
      have hsize2 : (queueStep s (QueueEvent.finish t)).pending.length +
          (queueStep s (QueueEvent.finish t)).running.length ≤ n := by
        rw [hq]
        have hps := (admissionLoop_perm s.pending (s.running.erase t)).length_eq
        have herase := List.length_erase_add_one hmem
        show (admissionLoop s.pending (s.running.erase t)).1.length +
          (admissionLoop s.pending (s.running.erase t)).2.length ≤ n
        simp only [List.length_append] at hps
        omega
      obtain ⟨fs, hfs, hp, hr⟩ := ih (queueStep s (QueueEvent.finish t))
        (queueStep_inv s (QueueEvent.finish t) hinv) hsize2
      refine ⟨QueueEvent.finish t :: fs, ?_, hp, hr⟩
      intro e he
      rcases List.mem_cons.mp he with h | h
      · exact ⟨t, h⟩
      · exact hfs e h

/-- C3: for every sequence of add and settlement events (task ids distinct),
at every point of the run at most maxConcurrent = 5 tasks are executing, and
every submitted task settles exactly once: continuing the run with settlement
events only (each running task's finally callback re-runs admission, so such
a continuation always exists) empties both the pending and the running lists,
and the settlement log then contains each submitted id exactly once —
membership matches the submitted ids and the log is duplicate-free. -/
theorem c3_queue_bounded_and_every_task_settles (events : List QueueEvent)
    (hnodup : (addedIds events).Nodup) :
    (∀ pre suf : List QueueEvent, events = pre ++ suf →
      (queueRun queueInitial pre).running.length ≤ maxConcurrent) ∧
    ∃ finishes : List QueueEvent,
      (∀ e ∈ finishes, ∃ t, e = QueueEvent.finish t) ∧
      (queueRun queueInitial (events ++ finishes)).pending = [] ∧
      (queueRun queueInitial (events ++ finishes)).running = [] ∧
      (queueRun queueInitial (events ++ finishes)).done.Nodup ∧
      ∀ t : Nat,
        t ∈ (queueRun queueInitial (events ++ finishes)).done ↔ t ∈ addedIds events := by
  have hinv0 : QueueInv queueInitial := ⟨Nat.zero_le _, fun h => absurd rfl h⟩
  constructor
  · intro pre suf hsplit
    exact (queueRun_inv pre queueInitial hinv0).1
  · obtain ⟨fs, hfs, hp, hr⟩ := queueDrain
      ((queueRun queueInitial events).pending.length +
        (queueRun queueInitial events).running.length)
      (queueRun queueInitial events) (queueRun_inv events queueInitial hinv0) (le_refl _)
    have hq : queueRun queueInitial (events ++ fs) =
        queueRun (queueRun queueInitial events) fs := by
      simp [queueRun]
    have hdone : ((queueRun queueInitial (events ++ fs)).done : Multiset Nat) =
        ↑(addedIds events) := by
      have h1 := queueRun_contents (events ++ fs) queueInitial
      have h0 : queueContents queueInitial = 0 := rfl
      rw [h0, zero_add, addedIds_append, addedIds_nil_of_finishes fs hfs,
        List.append_nil] at h1
      rw [queueContents, hq, hp, hr] at h1
      rw [hq]
      simpa using h1
    have hperm : List.Perm (queueRun queueInitial (events ++ fs)).done (addedIds events) :=
      Multiset.coe_eq_coe.mp hdone
    refine ⟨fs, hfs, by rw [hq]; exact hp, by rw [hq]; exact hr, ?_, ?_⟩
    · have hnd : Multiset.Nodup ((queueRun queueInitial (events ++ fs)).done : Multiset Nat) := by
        rw [hdone]
        exact Multiset.coe_nodup.mpr hnodup
      exact Multiset.coe_nodup.mp hnd
    · intro t
      exact hperm.mem_iff

/-- Seven tasks submitted back to back with no settlements in between: two
more than the concurrency bound. -/
def sevenAdds : List QueueEvent :=
  [QueueEvent.add 0, QueueEvent.add 1, QueueEvent.add 2, QueueEvent.add 3,
    QueueEvent.add 4, QueueEvent.add 5, QueueEvent.add 6]

/-- C3 witness: the queue theorem applied to seven back-to-back adds. -/
theorem c3_queue_bounded_and_every_task_settles_witness :
    (addedIds sevenAdds).Nodup ∧
    ((∀ pre suf : List QueueEvent, sevenAdds = pre ++ suf →
      (queueRun queueInitial pre).running.length ≤ maxConcurrent) ∧
    ∃ finishes : List QueueEvent,
      (∀ e ∈ finishes, ∃ t, e = QueueEvent.finish t) ∧
      (queueRun queueInitial (sevenAdds ++ finishes)).pending = [] ∧
      (queueRun queueInitial (sevenAdds ++ finishes)).running = [] ∧
      (queueRun queueInitial (sevenAdds ++ finishes)).done.Nodup ∧
      ∀ t : Nat,
        t ∈ (queueRun queueInitial (sevenAdds ++ finishes)).done ↔ t ∈ addedIds sevenAdds) :=
  ⟨by decide, c3_queue_bounded_and_every_task_settles sevenAdds (by decide)⟩
